import Mathlib

/-!
Verification of the timefs block-cache / metadata core.

This file gives a shallow embedding of the Rust sources (src/block.rs,
src/superblock.rs, src/inode.rs, src/fs.rs, src/file_attr.rs,
src/file_handle.rs, src/error.rs) and settles the frozen claims about them.

Modelling conventions:
* `u64` counters are `Nat` values reduced modulo `2 ^ 64` where an
  increment occurs, matching release-mode wrapping arithmetic.
* Byte sequences (`Vec<u8>`) are `List Nat`; the individual byte values
  are never inspected by the verified code paths.
* `Instant` / `SystemTime` values are abstract `Nat` timestamps supplied
  by the environment.
* Concurrent maps (`DashMap`, the moka cache, `HashMap`) are modelled as
  association lists with replace-on-insert semantics; lookups see the
  most recent insert for a key, which is exactly the per-key
  linearization the source relies on.
* The outcome of an environmental effect (a disk read or write performed
  by tokio) is passed in as an explicit parameter, so every run of the
  model corresponds to one resolution of the environment.
-/

namespace TFS

/-- Association-list lookup: the value stored under `k`, if any. -/
def alGet {α : Type} : List (Nat × α) → Nat → Option α
  | [], _ => none
  | p :: t, k => if p.1 = k then some p.2 else alGet t k

/-- Association-list removal of every binding of `k`. -/
def alRemove {α : Type} : List (Nat × α) → Nat → List (Nat × α)
  | [], _ => []
  | p :: t, k => if p.1 = k then alRemove t k else p :: alRemove t k

/-- Association-list insert with replace semantics (models map insert). -/
def alInsert {α : Type} (l : List (Nat × α)) (k : Nat) (v : α) : List (Nat × α) :=
  (k, v) :: alRemove l k

/-- The keys bound in an association list, in list order. -/
def alKeys {α : Type} (l : List (Nat × α)) : List Nat :=
  l.map Prod.fst

/-- String-keyed association-list lookup (models HashMap<String, u64>). -/
def alGetS {α : Type} : List (String × α) → String → Option α
  | [], _ => none
  | p :: t, k => if p.1 = k then some p.2 else alGetS t k

/-! ## Errors (src/error.rs, src/block.rs) -/

/-- BlockCacheError from src/block.rs: Io, NotFound(u64), FlushFailed(String). -/
inductive BlockCacheError
  | io
  | notFound (id : Nat)
  | flushFailed (msg : String)
deriving DecidableEq

/-- TimeFSError from src/error.rs. Payloads of opaque foreign error types
(std::io::Error, bincode::Error) are dropped. -/
inductive TimeFSError
  | io
  | serialize
  | notFound (id : Nat)
  | nameNotFound (name : String)
  | notDirectory (id : Nat)
  | isDirectory (id : Nat)
  | nameExist (name : String)
  | blockIndexError
  | blockCacheError (e : BlockCacheError)
deriving DecidableEq

/-- Linux libc errno values used by the mapping. -/
def EIO : Int := 5
def ENOENT : Int := 2
def ENOTDIR : Int := 20
def EISDIR : Int := 21
def EEXIST : Int := 17
def EINVAL : Int := 22

/-- The Into<c_int> impl for TimeFSError (src/error.rs lines 29-43).
The Serialize variant is matched by the final wildcard arm `_ => libc::EIO`. -/
def TimeFSError.toCInt : TimeFSError → Int
  | .io => EIO
  | .notFound _ => ENOENT
  | .nameNotFound _ => ENOENT
  | .notDirectory _ => ENOTDIR
  | .isDirectory _ => EISDIR
  | .nameExist _ => EEXIST
  | .blockIndexError => EINVAL
  | .blockCacheError _ => EIO
  | .serialize => EIO

/-! ## File flags (src/file_handle.rs) -/

/-- libc::O_RDONLY on Linux. -/
def O_RDONLY : Int := 0

/-- FileFlags for i32, is_read_only (src/file_handle.rs lines 63-65):
`self & libc::O_RDONLY != 0`. i32 values are embedded as integers;
`Int.land` agrees with two's-complement bitwise and on that range. -/
def is_read_only (flags : Int) : Bool :=
  !(Int.land flags O_RDONLY == 0)

/-! ## FileAttr and its builder (src/file_attr.rs) -/

/-- fuser::FileType restricted to the variants the core constructs. -/
inductive FileType
  | regularFile
  | directory
deriving DecidableEq

/-- fuser::FileAttr; timestamps are abstract Nat instants. -/
structure FileAttr where
  ino : Nat
  size : Nat
  blocks : Nat
  atime : Nat
  mtime : Nat
  ctime : Nat
  crtime : Nat
  kind : FileType
  perm : Nat
  nlink : Nat
  uid : Nat
  gid : Nat
  rdev : Nat
  flags : Nat
  blksize : Nat
deriving DecidableEq

/-- BLOCK_SIZE from src/fs.rs. -/
def BLOCK_SIZE : Nat := 4096

/-- FileAttrBuilder (src/file_attr.rs lines 6-22). -/
structure FileAttrBuilder where
  ino : Nat
  size : Nat
  blocks : Nat
  atime : Nat
  mtime : Nat
  ctime : Nat
  crtime : Nat
  kind : FileType
  perm : Nat
  nlink : Nat
  uid : Nat
  gid : Nat
  rdev : Nat
  flags : Nat
  blksize : Nat
deriving DecidableEq

/-- Default for FileAttrBuilder (src/file_attr.rs lines 171-193); the
current time and current uid/gid are environment inputs. -/
def FileAttrBuilder.mkDefault (now uid gid : Nat) : FileAttrBuilder :=
  { ino := 0, size := 0, blocks := 0,
    atime := now, mtime := now, ctime := now, crtime := now,
    kind := .regularFile, perm := 0o755, nlink := 1,
    uid := uid, gid := gid, rdev := 0, flags := 0, blksize := BLOCK_SIZE }

def FileAttrBuilder.setIno (b : FileAttrBuilder) (ino : Nat) : FileAttrBuilder :=
  { b with ino := ino }

def FileAttrBuilder.setSize (b : FileAttrBuilder) (size : Nat) : FileAttrBuilder :=
  { b with size := size }

def FileAttrBuilder.setBlocks (b : FileAttrBuilder) (blocks : Nat) : FileAttrBuilder :=
  { b with blocks := blocks }

/-- with_size (src/file_attr.rs lines 95-100). -/
def FileAttrBuilder.withSize (b : FileAttrBuilder) (size : Nat) : FileAttrBuilder :=
  { b with size := size, blocks := (size + BLOCK_SIZE) / BLOCK_SIZE, blksize := BLOCK_SIZE }

/-- with_directory (src/file_attr.rs lines 129-133). -/
def FileAttrBuilder.withDirectory (b : FileAttrBuilder) : FileAttrBuilder :=
  { b with kind := .directory, nlink := 2 }

/-- build (src/file_attr.rs lines 150-168), transcribed exactly: note that
the source assigns `size: self.ino` and `blocks: self.ino`. -/
def FileAttrBuilder.build (b : FileAttrBuilder) : FileAttr :=
  { ino := b.ino, size := b.ino, blocks := b.ino,
    atime := b.atime, mtime := b.mtime, ctime := b.ctime, crtime := b.crtime,
    kind := b.kind, perm := b.perm, nlink := b.nlink,
    uid := b.uid, gid := b.gid, rdev := b.rdev,
    flags := b.flags, blksize := b.blksize }

/-! ## Superblock (src/superblock.rs) -/

/-- Modulus of u64 arithmetic. -/
def U64 : Nat := 2 ^ 64

/-- fuser::FUSE_ROOT_ID. -/
def FUSE_ROOT_ID : Nat := 1

/-- SuperBlock (src/superblock.rs lines 10-20). -/
structure SuperBlock where
  magic : Nat
  block_size : Nat
  inode_count : Nat
  next_inode_id : Nat
  next_block_id : Nat
  root_dir_inode : Nat
  create_at : Nat
  dirty : Bool
deriving DecidableEq

/-- SuperBlock::new (src/superblock.rs lines 23-39); creation time is an
environment input. -/
def SuperBlock.mkNew (createdAt : Nat) : SuperBlock :=
  { magic := 0x54696d654653, block_size := BLOCK_SIZE,
    inode_count := FUSE_ROOT_ID, next_inode_id := FUSE_ROOT_ID + 1,
    next_block_id := 1, root_dir_inode := FUSE_ROOT_ID,
    create_at := createdAt, dirty := false }

/-- get_next_inode_id (src/superblock.rs lines 47-51): returns the current
counter and increments it (u64 wrap-around made explicit). -/
def SuperBlock.getNextInodeId (sb : SuperBlock) : Nat × SuperBlock :=
  (sb.next_inode_id, { sb with next_inode_id := (sb.next_inode_id + 1) % U64 })

/-- get_next_block_id (src/superblock.rs lines 53-57). -/
def SuperBlock.getNextBlockId (sb : SuperBlock) : Nat × SuperBlock :=
  (sb.next_block_id, { sb with next_block_id := (sb.next_block_id + 1) % U64 })

/-- alloc_inode (src/superblock.rs lines 71-73). -/
def SuperBlock.allocInodeCount (sb : SuperBlock) : SuperBlock :=
  { sb with inode_count := (sb.inode_count + 1) % U64 }

/-- The ids returned by `n` consecutive serialized calls to
get_next_inode_id, in call order. -/
def SuperBlock.inodeIdRun : SuperBlock → Nat → List Nat
  | _, 0 => []
  | sb, n + 1 =>
    let r := sb.getNextInodeId
    r.1 :: r.2.inodeIdRun n

/-- The ids returned by `n` consecutive serialized calls to
get_next_block_id, in call order. -/
def SuperBlock.blockIdRun : SuperBlock → Nat → List Nat
  | _, 0 => []
  | sb, n + 1 =>
    let r := sb.getNextBlockId
    r.1 :: r.2.blockIdRun n

/-! ## Block cache (src/block.rs) -/

/-- CacheEntry (src/block.rs lines 37-42). -/
structure CacheEntry where
  data : List Nat
  dirty : Bool
  last_modified : Nat
deriving DecidableEq

/-- BlockOperation (src/block.rs lines 44-48), the command-channel messages. -/
inductive BlockOperation
  | markDirty (id : Nat) (ts : Nat)
  | flush (id : Nat)
  | shutDown
deriving DecidableEq

/-- Combined state of one BlockCache: the moka cache map, the DashMap dirty
tracer, the crossbeam channel contents (FIFO), and the on-disk block store
(block id to file bytes; a missing key is a nonexistent block file). -/
structure CacheSys where
  blocks : List (Nat × CacheEntry)
  tracker : List (Nat × Nat)
  queue : List BlockOperation
  disk : List (Nat × List Nat)
deriving DecidableEq

/-- Outcome of the environmental `tokio::fs::read` call in get_block. -/
inductive DiskReadResult
  | found (data : List Nat)
  | notFound
  | ioErr
deriving DecidableEq

/-- The read outcome on a healthy disk: the stored bytes when the block file
exists, NotFound when it does not. -/
def healthyRead (sys : CacheSys) (id : Nat) : DiskReadResult :=
  match alGet sys.disk id with
  | some d => .found d
  | none => .notFound

/-- get_block (src/block.rs lines 120-147). On hit, returns the cached bytes.
On miss, the environment resolves the disk read to `readResult`: Ok data
inserts a clean entry and returns the data; ErrorKind::NotFound inserts an
empty clean entry and returns the empty sequence; any other error is
returned as BlockCacheError::Io with no insertion. -/
def getBlock (sys : CacheSys) (id : Nat) (readResult : DiskReadResult) (now : Nat) :
    Except TimeFSError (List Nat) × CacheSys :=
  match alGet sys.blocks id with
  | some entry => (.ok entry.data, sys)
  | none =>
    match readResult with
    | .found data =>
      (.ok data, { sys with blocks := alInsert sys.blocks id ⟨data, false, now⟩ })
    | .notFound =>
      (.ok [], { sys with blocks := alInsert sys.blocks id ⟨[], false, now⟩ })
    | .ioErr => (.error (.blockCacheError .io), sys)

/-- update_block (src/block.rs lines 149-162): insert a dirty entry with a
fresh timestamp and send MarkDirty over the channel (the send succeeds while
the background consumer is alive, which is the modelled regime). -/
def updateBlock (sys : CacheSys) (id : Nat) (data : List Nat) (now : Nat) : CacheSys :=
  { sys with blocks := alInsert sys.blocks id ⟨data, true, now⟩,
             queue := sys.queue ++ [.markDirty id now] }

/-- The tail of the task spawned inside flush_block_static (src/block.rs
lines 259-265), reached only after the disk write succeeded: re-fetch the
current entry, clear its dirty flag if it still exists, then remove the id
from the dirty tracer. -/
def flushTaskFinish (sys : CacheSys) (id : Nat) : CacheSys :=
  let sys2 :=
    match alGet sys.blocks id with
    | some e => { sys with blocks := alInsert sys.blocks id { e with dirty := false } }
    | none => sys
  { sys2 with tracker := alRemove sys2.tracker id }

/-- The disk write performed by the spawned flush task (src/block.rs line
256): it persists the entry captured when the flush was initiated. -/
def flushTaskWrite (sys : CacheSys) (id : Nat) (captured : List Nat) : CacheSys :=
  { sys with disk := alInsert sys.disk id captured }

/-- flush_block_static (src/block.rs lines 244-284) run to task completion,
with the environmental disk-write outcome passed as `diskWriteOk`. Absent or
clean entries are a no-op returning false. For a dirty entry the spawned
task writes the captured bytes; on write failure the task early-returns Err
before touching the cache entry, the tracer, or the disk — and the caller
still answers Ok(true), because `handle.await`'s `Ok(_)` arm also matches a
task that completed with an inner Err. `wait` only controls whether the
caller blocks until the task ends; it does not change the final state or
the returned value. -/
def flushBlockStatic (sys : CacheSys) (id : Nat) (wait : Bool) (diskWriteOk : Bool) :
    Except TimeFSError Bool × CacheSys :=
  match alGet sys.blocks id with
  | none => (.ok false, sys)
  | some entry =>
    if entry.dirty then
      if diskWriteOk then
        (.ok true, flushTaskFinish (flushTaskWrite sys id entry.data) id)
      else
        (.ok true, sys)
    else
      (.ok false, sys)

/-- Flush each id of the list in order, with wait=true and a healthy disk:
the ShutDown drain loop of background_thread (src/block.rs lines 206-223). -/
def flushList (sys : CacheSys) (ids : List Nat) : CacheSys :=
  ids.foldl (fun s i => (flushBlockStatic s i true true).2) sys

/-- The ShutDown arm of the consumer loop (src/block.rs lines 206-223):
snapshot the dirty tracer's keys, then flush each with wait=true. -/
def consumerShutdown (sys : CacheSys) : CacheSys :=
  flushList sys (alKeys sys.tracker)

/-- The background consumer loop (src/block.rs lines 191-225) processing a
list of pending commands in FIFO order with a healthy disk; ShutDown breaks
out of the loop, leaving any later command unprocessed. -/
def processOps : CacheSys → List BlockOperation → CacheSys
  | sys, [] => sys
  | sys, .markDirty id ts :: rest =>
      processOps { sys with tracker := alInsert sys.tracker id ts } rest
  | sys, .flush id :: rest =>
      processOps (flushBlockStatic sys id false true).2 rest
  | sys, .shutDown :: _ => consumerShutdown sys

/-- shutdown (src/block.rs lines 362-375) observed by a quiescent caller: the
ShutDown command is enqueued after everything already sent, and joining the
background thread means all pending commands get processed in order. -/
def drainAndShutdown (sys : CacheSys) : CacheSys :=
  processOps { sys with queue := [] } (sys.queue ++ [.shutDown])

/-- One atomic step of the interleaved execution around an in-flight flush:
the flush task's two visible actions (its disk write of the captured entry,
then its clear-and-untrack tail), update_block's cache insert, and the
consumer processing update_block's MarkDirty command. -/
inductive Evt
  | flushWrite (id : Nat) (captured : List Nat)
  | flushFinish (id : Nat)
  | updIns (id : Nat) (data : List Nat) (ts : Nat)
  | updMark (id : Nat) (ts : Nat)
deriving DecidableEq

/-- Apply one interleaving step. -/
def applyEvt (sys : CacheSys) : Evt → CacheSys
  | .flushWrite id captured => flushTaskWrite sys id captured
  | .flushFinish id => flushTaskFinish sys id
  | .updIns id data ts => { sys with blocks := alInsert sys.blocks id ⟨data, true, ts⟩ }
  | .updMark id ts => { sys with tracker := alInsert sys.tracker id ts }

/-- Run a schedule of interleaving steps. -/
def runEvts (sys : CacheSys) (evts : List Evt) : CacheSys :=
  evts.foldl applyEvt sys

/-! ## Inodes and the filesystem facade (src/inode.rs, src/fs.rs) -/

/-- BlockRef (src/block.rs lines 31-35). -/
structure BlockRef where
  block_id : Nat
  size : Nat
deriving DecidableEq

/-- INodeType (src/inode.rs lines 9-18). -/
inductive INodeType
  | file (blocks : List BlockRef) (size : Nat)
  | directory (entries : List (String × Nat))
deriving DecidableEq

/-- INode (src/inode.rs lines 34-40). -/
structure INode where
  id : Nat
  parent : Nat
  data : INodeType
  attr : FileAttr
deriving DecidableEq

/-- get_child_id (src/inode.rs lines 112-121). -/
def INode.getChildId (n : INode) (name : String) : Except TimeFSError Nat :=
  match n.data with
  | .file _ _ => .error (.notDirectory n.id)
  | .directory entries =>
    match alGetS entries name with
    | some child => .ok child
    | none => .error (.nameNotFound name)

/-- FileHandle (src/file_handle.rs lines 1-4). -/
structure FHandle where
  inode_id : Nat
  flags : Int
deriving DecidableEq

/-- The TimeFS state touched by the metadata operations (src/fs.rs lines
24-35): the superblock under its RwLock, the inode table, the file-handle
table and its next-id counter. -/
structure TimeFSState where
  super_block : SuperBlock
  inodes : List (Nat × INode)
  file_handles : List (Nat × FHandle)
  next_fs : Nat
deriving DecidableEq

/-- alloc_inode (src/fs.rs lines 168-192): bump inode_count, take the next
inode id, and build a default-attributed inode of the requested kind (the
current time and uid/gid are environment inputs). -/
def allocInode (sb : SuperBlock) (parent : Nat) (kind : FileType) (now uid gid : Nat) :
    INode × SuperBlock :=
  let sb1 := sb.allocInodeCount
  let r := sb1.getNextInodeId
  match kind with
  | .regularFile =>
    (⟨r.1, parent, .file [] 0, ((FileAttrBuilder.mkDefault now uid gid).setIno r.1).build⟩, r.2)
  | .directory =>
    (⟨r.1, parent, .directory [],
      (((FileAttrBuilder.mkDefault now uid gid).setIno r.1).withDirectory).build⟩, r.2)

/-- alloc_file_handle (src/fs.rs lines 194-201). -/
def allocFileHandle (fs : TimeFSState) (inodeId : Nat) (flags : Int) : Nat × TimeFSState :=
  let handleId := fs.next_fs
  (handleId, { fs with next_fs := fs.next_fs + 1,
                       file_handles := alInsert fs.file_handles handleId ⟨inodeId, flags⟩ })

/-- create_file (src/fs.rs lines 147-166), transcribed exactly: fetch the
parent inode (NotFound if absent), call get_child_id on the requested name
and propagate its error with `?`, then: if the child id resolves in the
inode table, answer Ok with the existing inode's attributes and a fresh
file handle; only otherwise allocate a new RegularFile inode and insert it
into the table under the looked-up child id. -/
def createFile (fs : TimeFSState) (parent : Nat) (name : String) (flags : Int)
    (now uid gid : Nat) : Except TimeFSError ((FileAttr × Nat) × TimeFSState) :=
  match alGet fs.inodes parent with
  | none => .error (.notFound parent)
  | some parentNode =>
    match parentNode.getChildId name with
    | .error e => .error e
    | .ok childId =>
      match alGet fs.inodes childId with
      | some inode =>
        let r := allocFileHandle fs childId flags
        .ok ((inode.attr, r.1), r.2)
      | none =>
        let r := allocInode fs.super_block parent .regularFile now uid gid
        .ok ((r.1.attr, r.1.id),
             { fs with super_block := r.2, inodes := alInsert fs.inodes childId r.1 })

/-- A concrete two-inode filesystem used to exercise create_file: the root
directory (id 1) holds one entry "a" mapping to inode 2, a regular file
present in the table. -/
def sampleFS : TimeFSState :=
  { super_block := SuperBlock.mkNew 0,
    inodes :=
      [(1, ⟨1, 1, .directory [("a", 2)],
            (((FileAttrBuilder.mkDefault 0 0 0).setIno 1).withDirectory).build⟩),
       (2, ⟨2, 1, .file [] 0, ((FileAttrBuilder.mkDefault 0 0 0).setIno 2).build⟩)],
    file_handles := [],
    next_fs := 1 }

/-! ## Association-list lemmas -/

theorem alGet_remove_ne {α : Type} (l : List (Nat × α)) {k k2 : Nat} (h : k2 ≠ k) :
    alGet (alRemove l k) k2 = alGet l k2 := by
  induction l with
  | nil => rfl
  | cons p t ih =>
    by_cases hp : p.1 = k
    · simp [alRemove, alGet, hp, Ne.symm h, ih]
    · by_cases hq : p.1 = k2
      · simp [alRemove, alGet, hp, hq, h]
      · simp [alRemove, alGet, hp, hq, ih]

theorem alGet_insert_self {α : Type} (l : List (Nat × α)) (k : Nat) (v : α) :
    alGet (alInsert l k v) k = some v := by
  simp [alInsert, alGet]

theorem alGet_insert_ne {α : Type} (l : List (Nat × α)) {k k2 : Nat} (v : α) (h : k2 ≠ k) :
    alGet (alInsert l k v) k2 = alGet l k2 := by
  simp only [alInsert, alGet, Ne.symm h, if_false]
  exact alGet_remove_ne l h

theorem alGet_remove_self {α : Type} (l : List (Nat × α)) (k : Nat) :
    alGet (alRemove l k) k = none := by
  induction l with
  | nil => rfl
  | cons p t ih =>
    by_cases hp : p.1 = k
    · simpa [alRemove, hp] using ih
    · simpa [alRemove, alGet, hp] using ih

theorem alKeys_insert_mem {α : Type} (l : List (Nat × α)) (k : Nat) (v : α) :
    k ∈ alKeys (alInsert l k v) := by
  simp [alInsert, alKeys]

/-! ## Flush lemmas -/

/-- A flush of id `i` leaves the cache entry and the disk content of every
other block id untouched. -/
theorem flushBlockStatic_preserves_other (sys : CacheSys) {i b : Nat} (w ok : Bool)
    (h : b ≠ i) :
    alGet ((flushBlockStatic sys i w ok).2).blocks b = alGet sys.blocks b ∧
    alGet ((flushBlockStatic sys i w ok).2).disk b = alGet sys.disk b := by
  unfold flushBlockStatic flushTaskFinish flushTaskWrite
  cases halg : alGet sys.blocks i with
  | none => exact ⟨rfl, rfl⟩
  | some entry =>
    by_cases hd : entry.dirty = true
    · cases ok with
      | false => simp [hd]
      | true => simp [hd, halg, alGet_insert_ne _ _ h]
    · simp [hd]

/-- A successful flush of a dirty entry writes its bytes to disk and leaves
a clean entry with the same data behind. -/
theorem flushBlockStatic_self_dirty (sys : CacheSys) {b : Nat} {e : CacheEntry}
    (halg : alGet sys.blocks b = some e) (hd : e.dirty = true) (w : Bool) :
    alGet ((flushBlockStatic sys b w true).2).blocks b = some { e with dirty := false } ∧
    alGet ((flushBlockStatic sys b w true).2).disk b = some e.data := by
  unfold flushBlockStatic flushTaskFinish flushTaskWrite
  simp [halg, hd, alGet_insert_self]

/-- A flush of a clean entry is a pure no-op on the state. -/
theorem flushBlockStatic_self_clean (sys : CacheSys) {b : Nat} {e : CacheEntry}
    (halg : alGet sys.blocks b = some e) (hd : e.dirty = false) (w ok : Bool) :
    (flushBlockStatic sys b w ok).2 = sys := by
  unfold flushBlockStatic
  simp [halg, hd]

/-- Once a block's entry is clean and its bytes are on disk, a drain over any
id list keeps those bytes on disk. -/
theorem flushList_done (ids : List Nat) : ∀ (sys : CacheSys) (b : Nat) (e : CacheEntry)
    (d : List Nat), alGet sys.blocks b = some e → e.dirty = false →
    alGet sys.disk b = some d → alGet (flushList sys ids).disk b = some d := by
  induction ids with
  | nil => intro sys b e d _ _ h3; exact h3
  | cons i rest ih =>
    intro sys b e d h1 h2 h3
    show alGet (flushList (flushBlockStatic sys i true true).2 rest).disk b = some d
    by_cases hib : b = i
    · subst hib
      rw [flushBlockStatic_self_clean sys h1 h2 true true]
      exact ih sys b e d h1 h2 h3
    · have hp := flushBlockStatic_preserves_other sys true true hib
      exact ih _ b e d (by rw [hp.1]; exact h1) h2 (by rw [hp.2]; exact h3)

/-- Draining a list of ids that contains a dirty block's id puts that
block's cached bytes on disk. -/
theorem flushList_reaches (ids : List Nat) : ∀ (sys : CacheSys) (b : Nat) (e : CacheEntry),
    alGet sys.blocks b = some e → e.dirty = true → b ∈ ids →
    alGet (flushList sys ids).disk b = some e.data := by
  induction ids with
  | nil => intro _ _ _ _ _ hmem; cases hmem
  | cons i rest ih =>
    intro sys b e h1 h2 hmem
    show alGet (flushList (flushBlockStatic sys i true true).2 rest).disk b = some e.data
    by_cases hib : b = i
    · subst hib
      have hs := flushBlockStatic_self_dirty sys h1 h2 true
      exact flushList_done rest _ b _ e.data hs.1 rfl hs.2
    · have hp := flushBlockStatic_preserves_other sys true true hib
      rcases List.mem_cons.mp hmem with hbi | hmem2
      · exact absurd hbi hib
      · exact ih _ b e (by rw [hp.1]; exact h1) h2 hmem2

/-- An atomic successful flush of a dirty entry is exactly its two
interleaving steps run back to back. -/
theorem flushBlockStatic_decomposes (sys : CacheSys) (id : Nat) (e : CacheEntry)
    (h : alGet sys.blocks id = some e) (hd : e.dirty = true) (w : Bool) :
    flushBlockStatic sys id w true
      = (.ok true, runEvts sys [.flushWrite id e.data, .flushFinish id]) := by
  unfold flushBlockStatic runEvts
  simp [h, hd, applyEvt]

/-! ## Superblock run lemmas -/

/-- Below the u64 wrap bound, `n` consecutive get_next_inode_id calls return
exactly the `n` consecutive naturals from the current counter. -/
theorem inodeIdRun_eq (n : Nat) : ∀ sb : SuperBlock, sb.next_inode_id + n ≤ U64 →
    sb.inodeIdRun n = List.range' sb.next_inode_id n := by
  induction n with
  | zero => intro sb _; rfl
  | succ m ih =>
    intro sb h
    have hstep : (sb.getNextInodeId).2.inodeIdRun m = List.range' (sb.next_inode_id + 1) m := by
      cases m with
      | zero => rfl
      | succ k =>
        have hmod : (sb.next_inode_id + 1) % U64 = sb.next_inode_id + 1 :=
          Nat.mod_eq_of_lt (by omega)
        have h2 := ih (sb.getNextInodeId).2
          (by simp [SuperBlock.getNextInodeId, hmod]; omega)
        simpa [SuperBlock.getNextInodeId, hmod] using h2
    show sb.next_inode_id :: (sb.getNextInodeId).2.inodeIdRun m = _
    rw [List.range'_succ, hstep]

/-- Below the u64 wrap bound, `n` consecutive get_next_block_id calls return
exactly the `n` consecutive naturals from the current counter. -/
theorem blockIdRun_eq (n : Nat) : ∀ sb : SuperBlock, sb.next_block_id + n ≤ U64 →
    sb.blockIdRun n = List.range' sb.next_block_id n := by
  induction n with
  | zero => intro sb _; rfl
  | succ m ih =>
    intro sb h
    have hstep : (sb.getNextBlockId).2.blockIdRun m = List.range' (sb.next_block_id + 1) m := by
      cases m with
      | zero => rfl
      | succ k =>
        have hmod : (sb.next_block_id + 1) % U64 = sb.next_block_id + 1 :=
          Nat.mod_eq_of_lt (by omega)
        have h2 := ih (sb.getNextBlockId).2
          (by simp [SuperBlock.getNextBlockId, hmod]; omega)
        simpa [SuperBlock.getNextBlockId, hmod] using h2
    show sb.next_block_id :: (sb.getNextBlockId).2.blockIdRun m = _
    rw [List.range'_succ, hstep]

/-! ## Claim theorems -/

/-- Claim C1 (code bug): create_file does not fail with NameExists when the
name is already present under the parent — on sampleFS, creating the
existing name "a" succeeds, returning the existing inode's attributes and a
fresh file handle; and creating the absent name "b" does not allocate a
fresh inode at all but fails with NameNotFound, the propagated result of
get_child_id. Both halves contradict the claimed create contract. -/
theorem create_file_contradicts_name_exists :
    createFile sampleFS 1 "a" 0 0 0 0
      = .ok ((((FileAttrBuilder.mkDefault 0 0 0).setIno 2).build, 1),
             { sampleFS with file_handles := [(1, ⟨2, 0⟩)], next_fs := 2 }) ∧
    createFile sampleFS 1 "b" 0 0 0 0 = .error (.nameNotFound "b") := by
  exact ⟨rfl, rfl⟩

/-- Claim C2 (code bug): an explicit flush_block with wait=true whose disk
write fails still answers Ok(true) to the caller — on a cache holding the
dirty entry for block 0, a failed write leaves the state untouched and the
result is Ok(true), not an error, because `handle.await`'s `Ok(_)` arm also
matches a task that finished with an inner Err. -/
theorem flush_block_swallows_write_failure :
    flushBlockStatic ⟨[(0, ⟨[1, 2, 3], true, 5⟩)], [(0, 5)], [], []⟩ 0 true false
      = (.ok true, ⟨[(0, ⟨[1, 2, 3], true, 5⟩)], [(0, 5)], [], []⟩) := by
  rfl

/-- Claim C3 (code bug): a re-dirtying interleaved with an in-flight flush
is lost. Starting from block 0 cached dirty with bytes [1] and tracked, the
schedule — flush task writes its captured bytes; update_block installs the
newer dirty bytes [2]; the consumer registers the new MarkDirty timestamp;
the flush task's tail runs — ends with the tracker no longer containing
block 0, the newer entry's dirty flag clobbered to false, and the disk
still holding the old bytes [1]: the newer write is never scheduled again. -/
theorem redirty_during_flush_lost :
    alGet (runEvts ⟨[(0, ⟨[1], true, 1⟩)], [(0, 1)], [], []⟩
      [.flushWrite 0 [1], .updIns 0 [2] 2, .updMark 0 2, .flushFinish 0]).tracker 0
      = none ∧
    alGet (runEvts ⟨[(0, ⟨[1], true, 1⟩)], [(0, 1)], [], []⟩
      [.flushWrite 0 [1], .updIns 0 [2] 2, .updMark 0 2, .flushFinish 0]).blocks 0
      = some ⟨[2], false, 2⟩ ∧
    alGet (runEvts ⟨[(0, ⟨[1], true, 1⟩)], [(0, 1)], [], []⟩
      [.flushWrite 0 [1], .updIns 0 [2] 2, .updMark 0 2, .flushFinish 0]).disk 0
      = some [1] := by
  exact ⟨rfl, rfl, rfl⟩

/-- Claim C4: durability on shutdown — from any quiescent cache state, after
update_block(b, D) followed by a successful shutdown (the MarkDirty and
ShutDown commands are drained in FIFO order with all disk writes
succeeding), the block store holds D for b, and a get_block on a freshly
opened cache over that store returns D. -/
theorem shutdown_durability (blocks0 : List (Nat × CacheEntry))
    (tracker0 : List (Nat × Nat)) (disk0 : List (Nat × List Nat))
    (b : Nat) (D : List Nat) (t now2 : Nat) :
    alGet (drainAndShutdown (updateBlock ⟨blocks0, tracker0, [], disk0⟩ b D t)).disk b
      = some D ∧
    (getBlock ⟨[], [], [], (drainAndShutdown (updateBlock ⟨blocks0, tracker0, [], disk0⟩ b D t)).disk⟩
      b (healthyRead ⟨[], [], [], (drainAndShutdown (updateBlock ⟨blocks0, tracker0, [], disk0⟩ b D t)).disk⟩ b)
      now2).1 = .ok D := by
  have h1 : alGet (drainAndShutdown (updateBlock ⟨blocks0, tracker0, [], disk0⟩ b D t)).disk b
      = some D := by
    show alGet (flushList ⟨alInsert blocks0 b ⟨D, true, t⟩, alInsert tracker0 b t, [], disk0⟩
        (alKeys (alInsert tracker0 b t))).disk b = some D
    exact flushList_reaches _ _ b ⟨D, true, t⟩ (alGet_insert_self _ _ _) rfl
      (alKeys_insert_mem _ _ _)
  refine ⟨h1, ?_⟩
  simp [getBlock, healthyRead, h1, alGet]

/-- Claim C5: on a cache miss, get_block treats a nonexistent block file as
an empty block — returning the empty byte sequence and inserting an empty
clean entry — while any other read failure is returned as an I/O error with
no cache insertion (a successful read inserts a clean entry with the bytes
read). -/
theorem get_block_miss_semantics (sys : CacheSys) (id now : Nat) (data : List Nat)
    (h : alGet sys.blocks id = none) :
    getBlock sys id (.found data) now
      = (.ok data, { sys with blocks := alInsert sys.blocks id ⟨data, false, now⟩ }) ∧
    getBlock sys id .notFound now
      = (.ok [], { sys with blocks := alInsert sys.blocks id ⟨[], false, now⟩ }) ∧
    getBlock sys id .ioErr now = (.error (.blockCacheError .io), sys) := by
  unfold getBlock
  rw [h]
  exact ⟨rfl, rfl, rfl⟩

/-- Witness for claim C5 at a concrete empty cache. -/
theorem get_block_miss_semantics_witness :
    alGet (CacheSys.mk [] [] [] []).blocks 0 = none ∧
    (getBlock ⟨[], [], [], []⟩ 0 (.found [9]) 7
      = (.ok [9], { CacheSys.mk [] [] [] [] with
          blocks := alInsert (CacheSys.mk [] [] [] []).blocks 0 ⟨[9], false, 7⟩ }) ∧
    getBlock ⟨[], [], [], []⟩ 0 .notFound 7
      = (.ok [], { CacheSys.mk [] [] [] [] with
          blocks := alInsert (CacheSys.mk [] [] [] []).blocks 0 ⟨[], false, 7⟩ }) ∧
    getBlock ⟨[], [], [], []⟩ 0 .ioErr 7 = (.error (.blockCacheError .io), ⟨[], [], [], []⟩)) :=
  ⟨rfl, get_block_miss_semantics ⟨[], [], [], []⟩ 0 7 [9] rfl⟩

/-- Claim C6: read-your-write round trip — for every block id and byte
sequence, update_block followed by get_block on the same id (no eviction in
between, any disk-read resolution) returns exactly the written bytes. -/
theorem update_then_get_roundtrip (sys : CacheSys) (id : Nat) (data : List Nat)
    (now now2 : Nat) (readResult : DiskReadResult) :
    (getBlock (updateBlock sys id data now) id readResult now2).1 = .ok data := by
  unfold getBlock updateBlock
  simp [alGet_insert_self]

/-- Claim C7: superblock allocation is read-then-increment — each getter
returns the current counter and bumps it by one, and (below the u64 wrap
bound) N consecutive serialized calls return the N consecutive ids from the
current counter: gapless from the start, pairwise strictly increasing, so
no two calls observe the same id. -/
theorem superblock_alloc_ids (sb : SuperBlock) (n : Nat)
    (hI : sb.next_inode_id + n ≤ U64) (hB : sb.next_block_id + n ≤ U64) :
    (sb.getNextInodeId).1 = sb.next_inode_id ∧
    (sb.getNextInodeId).2.next_inode_id = (sb.next_inode_id + 1) % U64 ∧
    (sb.getNextBlockId).1 = sb.next_block_id ∧
    (sb.getNextBlockId).2.next_block_id = (sb.next_block_id + 1) % U64 ∧
    sb.inodeIdRun n = List.range' sb.next_inode_id n ∧
    sb.blockIdRun n = List.range' sb.next_block_id n ∧
    (sb.inodeIdRun n).Pairwise (· < ·) ∧
    (sb.blockIdRun n).Pairwise (· < ·) := by
  have hi := inodeIdRun_eq n sb hI
  have hb := blockIdRun_eq n sb hB
  refine ⟨rfl, rfl, rfl, rfl, hi, hb, ?_, ?_⟩
  · rw [hi]; exact List.pairwise_lt_range' _ _ 1
  · rw [hb]; exact List.pairwise_lt_range' _ _ 1

/-- Witness for claim C7 on a fresh superblock and three allocations:
inode ids [2, 3, 4], block ids [1, 2, 3]. -/
theorem superblock_alloc_ids_witness :
    ((SuperBlock.mkNew 0).next_inode_id + 3 ≤ U64 ∧
     (SuperBlock.mkNew 0).next_block_id + 3 ≤ U64) ∧
    (((SuperBlock.mkNew 0).getNextInodeId).1 = (SuperBlock.mkNew 0).next_inode_id ∧
    ((SuperBlock.mkNew 0).getNextInodeId).2.next_inode_id
      = ((SuperBlock.mkNew 0).next_inode_id + 1) % U64 ∧
    ((SuperBlock.mkNew 0).getNextBlockId).1 = (SuperBlock.mkNew 0).next_block_id ∧
    ((SuperBlock.mkNew 0).getNextBlockId).2.next_block_id
      = ((SuperBlock.mkNew 0).next_block_id + 1) % U64 ∧
    (SuperBlock.mkNew 0).inodeIdRun 3 = List.range' (SuperBlock.mkNew 0).next_inode_id 3 ∧
    (SuperBlock.mkNew 0).blockIdRun 3 = List.range' (SuperBlock.mkNew 0).next_block_id 3 ∧
    ((SuperBlock.mkNew 0).inodeIdRun 3).Pairwise (· < ·) ∧
    ((SuperBlock.mkNew 0).blockIdRun 3).Pairwise (· < ·)) :=
  ⟨⟨by decide, by decide⟩, superblock_alloc_ids (SuperBlock.mkNew 0) 3 (by decide) (by decide)⟩

/-- Claim C8: FileAttrBuilder.build assigns the produced FileAttr's size and
blocks fields from the builder's inode id, not from its tracked size and
blocks state — for every builder configuration, including any combination
of size, blocks and with_size calls, build().size and build().blocks both
equal the builder's ino. -/
theorem builder_build_size_blocks_from_ino (b : FileAttrBuilder) (s1 s2 s3 : Nat) :
    (b.build).size = b.ino ∧ (b.build).blocks = b.ino ∧
    ((((b.setSize s1).setBlocks s2).withSize s3).build).size = b.ino ∧
    ((((b.setSize s1).setBlocks s2).withSize s3).build).blocks = b.ino := by
  exact ⟨rfl, rfl, rfl, rfl⟩

/-- Claim C9: the Into<c_int> mapping sends not-found and name-not-found to
ENOENT, not-a-directory to ENOTDIR, is-a-directory to EISDIR, name-exists
to EEXIST, I/O and block-cache failures to EIO, invalid block index to
EINVAL, and every error kind lands inside that POSIX code set. -/
theorem errno_mapping :
    (∀ i, (TimeFSError.notFound i).toCInt = ENOENT) ∧
    (∀ s, (TimeFSError.nameNotFound s).toCInt = ENOENT) ∧
    (∀ i, (TimeFSError.notDirectory i).toCInt = ENOTDIR) ∧
    (∀ i, (TimeFSError.isDirectory i).toCInt = EISDIR) ∧
    (∀ s, (TimeFSError.nameExist s).toCInt = EEXIST) ∧
    TimeFSError.io.toCInt = EIO ∧
    (∀ e, (TimeFSError.blockCacheError e).toCInt = EIO) ∧
    TimeFSError.blockIndexError.toCInt = EINVAL ∧
    (∀ e : TimeFSError, e.toCInt = ENOENT ∨ e.toCInt = ENOTDIR ∨ e.toCInt = EISDIR ∨
      e.toCInt = EEXIST ∨ e.toCInt = EIO ∨ e.toCInt = EINVAL) := by
  refine ⟨fun _ => rfl, fun _ => rfl, fun _ => rfl, fun _ => rfl, fun _ => rfl, rfl,
    fun _ => rfl, rfl, ?_⟩
  intro e
  cases e <;> first
    | exact Or.inl rfl
    | exact Or.inr (Or.inl rfl)
    | exact Or.inr (Or.inr (Or.inl rfl))
    | exact Or.inr (Or.inr (Or.inr (Or.inl rfl)))
    | exact Or.inr (Or.inr (Or.inr (Or.inr (Or.inl rfl))))
    | exact Or.inr (Or.inr (Or.inr (Or.inr (Or.inr rfl))))

/-- Claim C10: is_read_only is constantly false — it tests
`flags & O_RDONLY != 0` and O_RDONLY is 0 on Linux, so no flags value, in
particular a read-only open, is ever classified as read-only. -/
theorem is_read_only_always_false (flags : Int) : is_read_only flags = false := by
  have h : Int.land flags O_RDONLY = 0 := by
    cases flags with
    | ofNat m =>
      show Int.land (Int.ofNat m) (Int.ofNat 0) = 0
      simp [Int.land]
    | negSucc m =>
      show Int.land (Int.negSucc m) (Int.ofNat 0) = 0
      simp [Int.land, Nat.ldiff, Nat.bitwise]
  simp [is_read_only, h]

end TFS
